import Mathlib

/-!
Verification of the ArchivistBot Obsidian plugin's sync core.

This file gives a shallow embedding, in Lean 4, of the parts of the
plugin that the specification talks about:

* the timed request executor (`extractHttpStatus`, `isRetryable`,
  `requestWithRetry` from `src/api-client.ts`);
* the credential manager (`isAccessTokenValid`, `doRefresh`,
  `ensureAccessToken` from `src/api-client.ts`), including a small-step
  event-loop model of concurrent callers awaiting the shared refresh
  promise;
* the note sync engine (`SyncEngine.sync`, `syncAndSchedule`, `stop`
  from `src/sync-engine.ts`), both as an atomic cycle function and as a
  small-step machine whose steps are the cycle's await points;
* the config sync orchestrator (`pushToServer`, `pullFromServer`,
  `initialize` from `src/config-sync.ts`);
* the batch sibling grouping consumed by `NoteWriter.write`.

Machine integers are modelled as `Nat`/`Int`; JavaScript exceptions are
modelled with `Except`; the cooperative event loop is modelled by
explicit interleavings of atomic segments (the code between `await`s).
-/

namespace Archivist

/-! ## Timed request executor (src/api-client.ts) -/

/-- Value of a run of decimal digits, as computed by `parseInt` on the
regex capture in `extractHttpStatus`. -/
def parseDigits (ds : List Char) : Nat :=
  ds.foldl (fun a c => a * 10 + (c.toNat - 48)) 0

/-- Left-to-right scan for the first occurrence of the pattern
`status (\d+)`: the literal text `status ` followed by at least one
digit.  Mirrors the regex search in `extractHttpStatus`. -/
def findStatus : List Char → Option Nat
  | [] => none
  | c :: rest =>
    if (c :: rest).take 7 = "status ".toList then
      let ds := ((c :: rest).drop 7).takeWhile (·.isDigit)
      if ds = [] then findStatus rest else some (parseDigits ds)
    else findStatus rest

/-- `extractHttpStatus` from `src/api-client.ts`: extract an HTTP status
code from a thrown error's string form, with the regex
`/status (\d+)/`; `none` when no status is extractable. -/
def extractHttpStatus (e : String) : Option Nat :=
  findStatus e.toList

/-- `isRetryable` from `src/api-client.ts`.  A failure with no
extractable status is retryable; statuses 408, 429 and 5xx are
retryable; every other status is not. -/
def isRetryable (e : String) : Bool :=
  match extractHttpStatus e with
  | none => true
  | some status =>
    if status == 408 || status == 429 || status ≥ 500 then true
    else false

/-- One attempt of the underlying `timedRequest` call: either a decoded
response or the thrown error's string form. -/
def Attempt (α : Type) := Nat → Except String α

/-- Loop of `requestWithRetry` from `src/api-client.ts`, with
`remaining` iterations of `for (let attempt = 0; attempt < maxRetries;
attempt++)` left to run (so the current attempt index is
`maxRetries - remaining`) and the saved `lastError`.  Returns the
overall outcome (the error position is `Option String` because the
post-loop `throw lastError` can throw the initial `undefined`, modelled
as `none`) paired with the number of attempts actually issued from this
point on. -/
def retryLoop (attempts : Attempt α) (maxRetries : Nat) :
    Nat → Option String → Except (Option String) α × Nat
  | 0, lastError => (.error lastError, 0)
  | remaining + 1, _lastError =>
    let attempt := maxRetries - (remaining + 1)
    match attempts attempt with
    | .ok r => (.ok r, 1)
    | .error e =>
      if !isRetryable e || attempt == maxRetries - 1 then
        (.error (some e), 1)
      else
        let rest := retryLoop attempts maxRetries remaining (some e)
        (rest.1, rest.2 + 1)

/-- `requestWithRetry` from `src/api-client.ts`: run `timedRequest`
attempts with exponential backoff, rethrowing the last error once
`maxRetries` is exhausted or a non-retryable error is seen. -/
def requestWithRetry (attempts : Attempt α) (maxRetries : Nat) :
    Except (Option String) α × Nat :=
  retryLoop attempts maxRetries maxRetries none

end Archivist

namespace Archivist

/-! ## Credential manager (src/api-client.ts) -/

/-- Safety margin before expiry that triggers a proactive refresh
(`EXPIRY_MARGIN_MS`, 60 seconds). -/
def EXPIRY_MARGIN_MS : Int := 60000

/-- The persisted plugin settings fields the credential manager reads
and writes (`ArchivistBotSettings` in `src/settings.ts`). -/
structure Settings where
  refreshToken : String
  accessToken : String
  /-- Unix timestamp in milliseconds; `0` = not set. -/
  accessTokenExpiresAt : Int
  deriving Repr, DecidableEq

/-- `isAccessTokenValid` from `src/api-client.ts`: the stored access
token is usable when present and more than the safety margin away from
its expiry.  `now` is `Date.now()`. -/
def isAccessTokenValid (s : Settings) (now : Int) : Bool :=
  if s.accessToken = "" || s.accessTokenExpiresAt = 0 then false
  else decide (now < s.accessTokenExpiresAt - EXPIRY_MARGIN_MS)

/-- Outcome of the `requestWithRetry` call inside `doRefresh` against
`POST /v1/auth/refresh`: a decoded token pair (with the expiry already
converted to milliseconds, as `new Date(data.expires_at).getTime()`
does) or the thrown error's string form. -/
inductive RefreshHttp where
  | ok (accessToken : String) (expiresAtMs : Int) (refreshToken : String)
  | err (e : String)
  deriving Repr, DecidableEq

/-- Errors propagating out of the credential manager:
`RefreshTokenExpiredError` or any other rethrown error. -/
inductive AuthErr where
  | refreshTokenExpired
  | other (e : String)
  deriving Repr, DecidableEq

/-- `doRefresh` from `src/api-client.ts`, as a function of the stored
settings and the HTTP outcome of the refresh exchange.  Returns the new
settings, the number of `saveSettings()` persistence calls made, and
the result (`.ok` or the thrown error).  A missing refresh token throws
`RefreshTokenExpiredError` before any request; a 401/403 rejection
clears the access token, persists, and throws
`RefreshTokenExpiredError`; success overwrites the access token, its
expiry and the refresh token in the same synchronous segment and
persists. -/
def doRefresh (s : Settings) (http : RefreshHttp) :
    Settings × Nat × Except AuthErr Unit :=
  if s.refreshToken = "" then
    (s, 0, .error .refreshTokenExpired)
  else
    match http with
    | .ok access expiresAtMs refresh =>
      ({ s with accessToken := access, accessTokenExpiresAt := expiresAtMs,
                refreshToken := refresh }, 1, .ok ())
    | .err e =>
      match extractHttpStatus e with
      | some 401 =>
        ({ s with accessToken := "", accessTokenExpiresAt := 0 }, 1,
          .error .refreshTokenExpired)
      | some 403 =>
        ({ s with accessToken := "", accessTokenExpiresAt := 0 }, 1,
          .error .refreshTokenExpired)
      | _ => (s, 0, .error (.other e))

/-! ### Event-loop model of `ensureAccessToken`

`ensureAccessToken` deduplicates concurrent refreshes through the
nullable `this.refreshing` promise field.  Concurrency in the plugin is
cooperative: each caller runs synchronously from its entry until its
first `await`.  The model below tracks how many callers are before
their entry (`pending`), how many are suspended awaiting the shared
refresh promise (`waiting`), the shared nullable handle (`refreshing`),
and how many renewal exchanges (`doRefresh` invocations, each of which
issues a `POST /v1/auth/refresh` via `requestWithRetry` when a refresh
token is stored) have been started. -/

/-- Shared state of the API client plus the population of concurrent
`ensureAccessToken` callers. -/
structure TokenWorld where
  settings : Settings
  /-- `Date.now()` during the scenario (validity checks are
  instantaneous relative to the refresh round-trip). -/
  now : Int
  /-- Whether `this.refreshing` currently holds a pending promise. -/
  refreshing : Bool
  /-- Number of renewal exchanges started (`doRefresh` invocations). -/
  exchanges : Nat
  /-- Callers that have not yet executed the head of
  `ensureAccessToken`. -/
  pending : Nat
  /-- Callers suspended on `await this.refreshing`. -/
  waiting : Nat
  /-- Results observed by callers that have returned, most recent
  first. -/
  results : List (Except AuthErr Unit)
  deriving Repr

/-- Event-loop events: one pending caller runs the synchronous head of
`ensureAccessToken`, or the in-flight refresh promise settles with the
given HTTP outcome (resuming every waiter and clearing the handle in
the owner's `finally`). -/
inductive TokenEv where
  | enter
  | settle (http : RefreshHttp)
  deriving Repr, DecidableEq

/-- One event-loop step of the `ensureAccessToken` world. -/
def tokenStep (w : TokenWorld) : TokenEv → TokenWorld
  | .enter =>
    if w.pending = 0 then w
    else if isAccessTokenValid w.settings w.now then
      { w with pending := w.pending - 1, results := .ok () :: w.results }
    else if w.refreshing then
      { w with pending := w.pending - 1, waiting := w.waiting + 1 }
    else
      { w with pending := w.pending - 1, waiting := w.waiting + 1,
               refreshing := true, exchanges := w.exchanges + 1 }
  | .settle http =>
    if w.refreshing then
      let r := doRefresh w.settings http
      { w with settings := r.1, refreshing := false, waiting := 0,
               results := List.replicate w.waiting r.2.2 ++ w.results }
    else w

/-- Run a sequence of event-loop events. -/
def tokenRun (w : TokenWorld) (evs : List TokenEv) : TokenWorld :=
  evs.foldl tokenStep w

/-! ## Note sync engine (src/sync-engine.ts) -/

/-- The fields of a server `NoteResponse` that the sync engine itself
reads (`id` for acknowledgement bookkeeping, `name` and
`source_batch_id` for batch cross-referencing); the remaining fields
are only passed through to the writer. -/
structure Note where
  id : String
  name : String
  source_batch_id : Option String
  deriving Repr, DecidableEq

/-- `MAX_BACKOFF_MULTIPLIER` from `src/sync-engine.ts`. -/
def MAX_BACKOFF_MULTIPLIER : Nat := 5

/-- The mutable fields of `SyncEngine` that one cycle reads or
writes. -/
structure EngineState where
  /-- The armed `setInterval` handle; `none` = no timer. -/
  intervalId : Option Nat
  syncing : Bool
  consecutiveFailures : Nat
  baseIntervalSec : Nat
  deriving Repr, DecidableEq

/-- Outcome of `client.fetchUnsynced()`: a note batch, a thrown
`RefreshTokenExpiredError`, or any other thrown error. -/
inductive FetchOutcome where
  | ok (notes : List Note)
  | errTokenExpired
  | err (e : String)
  deriving Repr, DecidableEq

/-- Outcome of `client.markSynced(...)`. -/
inductive MarkOutcome where
  | ok
  | errTokenExpired
  | err (e : String)
  deriving Repr, DecidableEq

/-- Outcome of one `writer.write(note)` call: a thrown error
(`.error ()`), or the returned `string | null` (`.ok`). -/
def WriteOutcome := Except Unit (Option String)

/-- The environment one sync cycle runs against: the responses of the
API client, the local writer, and the optional archive scanner. -/
structure CycleEnv where
  fetch : FetchOutcome
  write : Note → WriteOutcome
  mark : MarkOutcome
  /-- `none` = no archive scanner configured; otherwise the scanner's
  thrown error or returned path list. -/
  scanner : Option (Except String (List String))

/-- What `sync()` produces: a returned number or a propagated
(re-thrown) error. -/
inductive SyncResult where
  | ret (n : Int)
  | thrown (e : String)
  deriving Repr, DecidableEq

/-- Observable calls one `sync()` invocation makes on the API client. -/
structure SyncTrace where
  fetchCalls : Nat
  /-- Each `markSynced` call: the `syncedIds` array and the
  `vaultPaths` record (as ordered id/path pairs). -/
  markCalls : List (List String × List (String × String))
  reconcileCalls : List (List String)
  deriving Repr, DecidableEq

/-- JavaScript truthiness of the `string | null` returned by
`writer.write` (`if (path) ...`). -/
def pathTruthy : Option String → Bool
  | none => false
  | some p => p ≠ ""

/-- The per-note write loop of `sync()` (src/sync-engine.ts lines
141-158): returns the `written`, `syncedIds` and `vaultPaths` arrays in
iteration order.  A throwing write contributes to none of them; a
truthy path contributes to all three; a `null` (dedup) or falsy result
contributes only to `syncedIds`. -/
def cycleWrites (write : Note → WriteOutcome) :
    List Note → List String × List String × List (String × String)
  | [] => ([], [], [])
  | note :: rest =>
    let tail := cycleWrites write rest
    match write note with
    | .error () => tail
    | .ok (some p) =>
      if p ≠ "" then (p :: tail.1, note.id :: tail.2.1, (note.id, p) :: tail.2.2)
      else (tail.1, note.id :: tail.2.1, tail.2.2)
    | .ok none => (tail.1, note.id :: tail.2.1, tail.2.2)

/-- The `reconcileArchived` helper of `SyncEngine`: no scanner or a
throwing scanner produces no reconcile call; a non-empty path list is
reported in one call; every error is caught and swallowed. -/
def reconcileTrace (scanner : Option (Except String (List String))) :
    List (List String) :=
  match scanner with
  | none => []
  | some (.error _) => []
  | some (.ok paths) => if paths.length > 0 then [paths] else []

/-- `SyncEngine.sync()` from `src/sync-engine.ts`, as an atomic
function of the engine state and the cycle's environment.  Returns the
state after the cycle (the `finally` clearing of `syncing` included),
the returned value or propagated error, and the trace of API calls. -/
def sync (st : EngineState) (env : CycleEnv) :
    EngineState × SyncResult × SyncTrace :=
  if st.syncing then
    (st, .ret (-1), ⟨0, [], []⟩)
  else
    match env.fetch with
    | .errTokenExpired =>
      ({ st with intervalId := none, syncing := false }, .ret (-1), ⟨1, [], []⟩)
    | .err e =>
      ({ st with consecutiveFailures := st.consecutiveFailures + 1,
                 syncing := false }, .thrown e, ⟨1, [], []⟩)
    | .ok notes =>
      if notes.length = 0 then
        ({ st with consecutiveFailures := 0, syncing := false }, .ret 0,
          ⟨1, [], []⟩)
      else
        let w := cycleWrites env.write notes
        let written := w.1
        let syncedIds := w.2.1
        let vaultPaths := w.2.2
        let markTrace := if syncedIds.length > 0 then [(syncedIds, vaultPaths)] else []
        let success : EngineState × SyncResult × SyncTrace :=
          ({ st with consecutiveFailures := 0, syncing := false },
            .ret (written.length : Int),
            ⟨1, markTrace, reconcileTrace env.scanner⟩)
        if syncedIds.length > 0 then
          match env.mark with
          | .errTokenExpired =>
            ({ st with intervalId := none, syncing := false }, .ret (-1),
              ⟨1, markTrace, []⟩)
          | .err e =>
            ({ st with consecutiveFailures := st.consecutiveFailures + 1,
                       syncing := false }, .thrown e, ⟨1, markTrace, []⟩)
          | .ok => success
        else success

/-! ### Small-step model of one `sync()` call

The cycle suspends exactly at its `await`s: `fetchUnsynced`, each
`writer.write`, `markSynced`, and the archive reconciliation.  A phase
names the await the call is currently suspended on; a step runs the
synchronous segment from that resumption to the next suspension or to
the return.  The segment from the call of `sync()` to the first
suspension (guard check, `syncing = true`, issuing the fetch) is the
`entry` step. -/

/-- Program points of one `sync()` invocation: `entry` before the
guard check, one phase per `await`, and `done` after return. -/
inductive Phase where
  | entry
  | fetching
  | writing (pending : List Note) (written : List String)
      (syncedIds : List String) (vaultPaths : List (String × String))
  | marking (written : List String) (syncedIds : List String)
      (vaultPaths : List (String × String))
  | reconciling (count : Nat)
  | done (r : SyncResult)
  deriving Repr, DecidableEq

/-- After the write loop: issue `markSynced` when any id was collected,
else go straight to reconciliation. -/
def afterWrites (written syncedIds : List String)
    (vaultPaths : List (String × String)) : Phase :=
  if syncedIds.length > 0 then .marking written syncedIds vaultPaths
  else .reconciling written.length

/-- One synchronous segment of `sync()`: from the phase's resumption to
the next suspension point or return.  Returns the new engine state, the
next phase, and how many `fetchUnsynced` calls the segment issued. -/
def microStep (env : CycleEnv) (st : EngineState) :
    Phase → EngineState × Phase × Nat
  | .entry =>
    if st.syncing then (st, .done (.ret (-1)), 0)
    else ({ st with syncing := true }, .fetching, 1)
  | .fetching =>
    match env.fetch with
    | .errTokenExpired =>
      ({ st with intervalId := none, syncing := false }, .done (.ret (-1)), 0)
    | .err e =>
      ({ st with consecutiveFailures := st.consecutiveFailures + 1,
                 syncing := false }, .done (.thrown e), 0)
    | .ok notes =>
      if notes.length = 0 then
        ({ st with consecutiveFailures := 0, syncing := false },
          .done (.ret 0), 0)
      else
        (st, .writing notes [] [] [], 0)
  | .writing [] written syncedIds vaultPaths =>
    (st, afterWrites written syncedIds vaultPaths, 0)
  | .writing (note :: rest) written syncedIds vaultPaths =>
    let next :=
      match env.write note with
      | .error () => (written, syncedIds, vaultPaths)
      | .ok (some p) =>
        if p ≠ "" then
          (written ++ [p], syncedIds ++ [note.id], vaultPaths ++ [(note.id, p)])
        else (written, syncedIds ++ [note.id], vaultPaths)
      | .ok none => (written, syncedIds ++ [note.id], vaultPaths)
    match rest with
    | [] => (st, afterWrites next.1 next.2.1 next.2.2, 0)
    | _ => (st, .writing rest next.1 next.2.1 next.2.2, 0)
  | .marking written _syncedIds _vaultPaths =>
    match env.mark with
    | .errTokenExpired =>
      ({ st with intervalId := none, syncing := false }, .done (.ret (-1)), 0)
    | .err e =>
      ({ st with consecutiveFailures := st.consecutiveFailures + 1,
                 syncing := false }, .done (.thrown e), 0)
    | .ok => (st, .reconciling written.length, 0)
  | .reconciling count =>
    ({ st with consecutiveFailures := 0, syncing := false },
      .done (.ret (count : Int)), 0)
  | .done r => (st, .done r, 0)

/-- Two concurrent `sync()` calls against the same engine: each has its
own phase, its own cycle environment, and its own count of issued
`fetchUnsynced` calls. -/
structure TwoSync where
  engine : EngineState
  a : Phase
  b : Phase
  aFetch : Nat
  bFetch : Nat
  deriving Repr, DecidableEq

/-- Scheduler choice: which of the two calls runs its next synchronous
segment. -/
inductive Who where
  | A
  | B
  deriving Repr, DecidableEq

/-- Advance one of the two interleaved `sync()` calls by one
synchronous segment. -/
def twoStep (envA envB : CycleEnv) (w : TwoSync) : Who → TwoSync
  | .A =>
    let r := microStep envA w.engine w.a
    { w with engine := r.1, a := r.2.1, aFetch := w.aFetch + r.2.2 }
  | .B =>
    let r := microStep envB w.engine w.b
    { w with engine := r.1, b := r.2.1, bFetch := w.bFetch + r.2.2 }

/-- Run an interleaving of the two calls. -/
def twoRun (envA envB : CycleEnv) (w : TwoSync) (sched : List Who) : TwoSync :=
  sched.foldl (twoStep envA envB) w

/-- A phase strictly inside a cycle: between passing the guard and
returning. -/
def midCycle : Phase → Bool
  | .entry => false
  | .done _ => false
  | _ => true

/-! ### `syncAndSchedule` / `stop` and the interval lifecycle -/

/-- `scheduleNext` from `src/sync-engine.ts`: clear any existing
interval, then arm a fresh one whose length is the base interval scaled
by `min(2 ^ consecutiveFailures, 2 ^ MAX_BACKOFF_MULTIPLIER)`, and
register it.  `freshId` is the id `window.setInterval` returns.
Produces the new state and the interval length in ms. -/
def scheduleNext (st : EngineState) (freshId : Nat) : EngineState × Nat :=
  let multiplier := min (2 ^ st.consecutiveFailures) (2 ^ MAX_BACKOFF_MULTIPLIER)
  ({ st with intervalId := some freshId }, st.baseIntervalSec * multiplier * 1000)

/-- `stop` from `src/sync-engine.ts`: clear the pending interval. -/
def stop (st : EngineState) : EngineState :=
  { st with intervalId := none }

/-- A `syncAndSchedule` invocation in progress: either suspended inside
`await this.sync()` at the given phase, or finished (its unconditional
`scheduleNext()` included). -/
inductive SchedPhase where
  | running (p : Phase)
  | finished
  deriving Repr, DecidableEq

/-- World for one timer-driven `syncAndSchedule` call interleaved with
external `stop()` calls. -/
structure SchedWorld where
  engine : EngineState
  phase : SchedPhase
  /-- Ids passed to `registerInterval`, in order. -/
  registered : List Nat
  /-- Next id `window.setInterval` will return. -/
  freshId : Nat
  deriving Repr, DecidableEq

/-- Events: the cycle's next synchronous segment runs (`tick`), or
teardown calls `stop()` (`stopCall`).  When the cycle's final segment
returns, the `syncAndSchedule` continuation runs `scheduleNext()` in
the same event-loop turn (promise continuations are microtasks, so no
external call can interleave). -/
inductive SchedEv where
  | tick
  | stopCall
  deriving Repr, DecidableEq

/-- One step of the `syncAndSchedule`/`stop` world. -/
def schedStep (env : CycleEnv) (w : SchedWorld) : SchedEv → SchedWorld
  | .stopCall => { w with engine := stop w.engine }
  | .tick =>
    match w.phase with
    | .finished => w
    | .running p =>
      let r := microStep env w.engine p
      match r.2.1 with
      | .done _ =>
        let s := scheduleNext r.1 w.freshId
        { engine := s.1, phase := .finished,
          registered := w.registered ++ [w.freshId], freshId := w.freshId + 1 }
      | p' => { w with engine := r.1, phase := .running p' }

/-- Run a sequence of scheduler-world events. -/
def schedRun (env : CycleEnv) (w : SchedWorld) (evs : List SchedEv) : SchedWorld :=
  evs.foldl (schedStep env) w

/-! ## Config sync orchestrator (src/config-sync.ts)

Category items are modelled by opaque strings; `stringifyCats` is the
concrete stand-in for `JSON.stringify` on a parsed category array (the
code only ever compares these strings for equality).  A tags registry
is modelled directly by its `JSON.stringify` form. -/

/-- The four-valued `SyncStatus` of `src/config-sync.ts`. -/
inductive SyncStatus where
  | synced
  | pending
  | error
  | offline
  deriving Repr, DecidableEq

/-- Stand-in for `JSON.stringify` on a category array. -/
def stringifyCats (cats : List String) : String :=
  "[" ++ String.intercalate "," cats ++ "]"

/-- The mutable fields of `ConfigSync` the orchestration logic reads
and writes: the coarse status and the two content-hash snapshots. -/
structure ConfigState where
  status : SyncStatus
  lastPushedCategories : String
  lastPushedTags : String
  deriving Repr, DecidableEq

/-- The field initializers of `ConfigSync`'s declaration. -/
def ConfigState.init : ConfigState :=
  { status := .pending, lastPushedCategories := "", lastPushedTags := "" }

/-- Errors out of a config network call. -/
inductive CfgErr where
  | refreshTokenExpired
  | other (e : String)
  deriving Repr, DecidableEq

/-- Which config artifact a file path resolved to. -/
inductive Artifact where
  | categories
  | tags
  deriving Repr, DecidableEq

/-- `ConfigSync.pushToServer` from `src/config-sync.ts`, for a path
that resolved to `which`.  `readHash` is `JSON.stringify` of what the
artifact manager's `read()` returned; `net` is the outcome of the
`updateCategories`/`updateTags` call if one is made.  Returns the new
state and the number of network update calls issued. -/
def pushToServer (cs : ConfigState) (which : Artifact) (readHash : String)
    (net : Except CfgErr Unit) : ConfigState × Nat :=
  match which with
  | .categories =>
    if readHash = cs.lastPushedCategories then
      ({ cs with status := .synced }, 0)
    else
      match net with
      | .ok () =>
        ({ cs with lastPushedCategories := readHash, status := .synced }, 1)
      | .error .refreshTokenExpired => ({ cs with status := .error }, 1)
      | .error (.other _) => ({ cs with status := .error }, 1)
  | .tags =>
    if readHash = cs.lastPushedTags then
      ({ cs with status := .synced }, 0)
    else
      match net with
      | .ok () =>
        ({ cs with lastPushedTags := readHash, status := .synced }, 1)
      | .error .refreshTokenExpired => ({ cs with status := .error }, 1)
      | .error (.other _) => ({ cs with status := .error }, 1)

/-- Environment of one `pullFromServer` call. -/
structure PullEnv where
  getCats : Except CfgErr (List String)
  getTagsRegistry : Except CfgErr String

/-- `ConfigSync.pullFromServer` from `src/config-sync.ts`: fetch
categories and tags, write them locally, and record both snapshot
hashes.  Field assignments already made before a later throw are kept,
as in the source. -/
def pullFromServer (cs : ConfigState) (env : PullEnv) : ConfigState :=
  match env.getCats with
  | .error .refreshTokenExpired => { cs with status := .error }
  | .error (.other _) => { cs with status := .offline }
  | .ok cats =>
    let cs := { cs with lastPushedCategories := stringifyCats cats }
    match env.getTagsRegistry with
    | .error .refreshTokenExpired => { cs with status := .error }
    | .error (.other _) => { cs with status := .offline }
    | .ok registry => { cs with lastPushedTags := registry, status := .synced }

/-- Environment of one `initialize` call. -/
structure InitEnv where
  getCats : Except CfgErr (List String)
  /-- What `categoriesManager.read()` returns (used only on the
  first-contact path). -/
  localCats : List String
  pluginInit : Except CfgErr Unit
  getTagsRegistry : Except CfgErr String

/-- `ConfigSync.initialize` from `src/config-sync.ts`: if the server
has no categories, seed it with the local defaults via `POST /v1/init`;
otherwise pull the server's categories into the local artifact.  Then
always pull tags.  Returns the new state and, when the pull path wrote
the local categories artifact, the pulled category list.  Note that
`initialize` never touches `lastPushedCategories`/`lastPushedTags`. -/
def initializeConfig (cs : ConfigState) (env : InitEnv) :
    ConfigState × Option (List String) :=
  match env.getCats with
  | .error .refreshTokenExpired => ({ cs with status := .error }, none)
  | .error (.other _) => ({ cs with status := .offline }, none)
  | .ok serverCats =>
    if serverCats.length = 0 then
      match env.pluginInit with
      | .error .refreshTokenExpired => ({ cs with status := .error }, none)
      | .error (.other _) => ({ cs with status := .offline }, none)
      | .ok () =>
        match env.getTagsRegistry with
        | .error .refreshTokenExpired => ({ cs with status := .error }, none)
        | .error (.other _) => ({ cs with status := .offline }, none)
        | .ok _ => ({ cs with status := .synced }, none)
    else
      match env.getTagsRegistry with
      | .error .refreshTokenExpired => ({ cs with status := .error }, some serverCats)
      | .error (.other _) => ({ cs with status := .offline }, some serverCats)
      | .ok _ => ({ cs with status := .synced }, some serverCats)

/-! ## Batch sibling grouping -/

/-- Modelled from the spec: `buildBatchSiblings` from
`src/sync-engine.ts`.  The function is exported and unit-tested by the
repository, but its implementation is absent from the provided sources
(the bundled `sync-engine.ts` snapshot predates the smart-split
feature); only its tests, its TODO entry and its consumer
(`NoteWriter.write`'s `siblingNames` parameter) are present.  Per the
spec: group the fetched batch by batch identifier; each note of a group
of at least two is mapped to the display names of its batch siblings
(every other note of its group, in fetch order); a note without a batch
identifier, and the sole member of a group of size one, get no
entry. -/
def buildBatchSiblings (notes : List Note) : List (String × List String) :=
  notes.filterMap fun n =>
    match n.source_batch_id with
    | none => none
    | some b =>
      let group := notes.filter (fun m => m.source_batch_id == some b)
      if group.length ≥ 2 then
        some (n.id, (group.filter (fun m => m.id ≠ n.id)).map (·.name))
      else none

/-- Modelled from the spec: the write dispatch of the sync cycle looks
each note's id up in the batch-sibling map and hands the resulting
sibling names (or nothing) to `NoteWriter.write`. -/
def dispatchedSiblings (notes : List Note) : List (Note × Option (List String)) :=
  let sib := buildBatchSiblings notes
  notes.map fun n => (n, (sib.find? (fun kv => kv.1 == n.id)).map (·.2))

/-- `k` back-to-back `sync()` cycles, cycle `i` running against
`envs i`. -/
def iterCycles (st : EngineState) (envs : Nat → CycleEnv) (k : Nat) : EngineState :=
  (List.range k).foldl (fun s i => (sync s (envs i)).1) st

/-- The logical mutual-exclusion invariant: the `syncing` flag is set
exactly while one of the two calls is inside its cycle, and the two are
never inside simultaneously. -/
def Jinv (w : TwoSync) : Prop :=
  w.engine.syncing = (midCycle w.a || midCycle w.b)
  ∧ ¬(midCycle w.a = true ∧ midCycle w.b = true)

/-- The entry the batch grouping produces for one note (named form of
the `filterMap` body of `buildBatchSiblings`). -/
def sibEntry (notes : List Note) (n : Note) : Option (String × List String) :=
  match n.source_batch_id with
  | none => none
  | some b =>
    let group := notes.filter (fun m => m.source_batch_id == some b)
    if group.length ≥ 2 then
      some (n.id, (group.filter (fun m => m.id ≠ n.id)).map (·.name))
    else none

/-- Cycle environment for the `stop` race trace: the fetch returns an
empty batch. -/
def stopRaceEnv : CycleEnv :=
  { fetch := .ok [], write := fun _ => .ok none, mark := .ok, scanner := none }

/-- The scheduler world at the start of a timer-driven cycle: a timer
(id 7) is armed, `syncAndSchedule` is about to run `sync()`, and
`window.setInterval` will hand out id 100 next. -/
def stopRaceStart : SchedWorld :=
  ⟨⟨some 7, false, 0, 60⟩, .running .entry, [], 100⟩

/-- Concrete fixtures for closed instances of the theorems below. -/
def idleEngine : EngineState := ⟨none, false, 0, 60⟩

/-- A three-note batch whose second note's write will throw. -/
def c1notes : List Note := [⟨"1", "A", none⟩, ⟨"2", "B", none⟩, ⟨"3", "C", none⟩]

/-- Environment in which note "2"'s write throws and the others return
paths. -/
def c1env : CycleEnv :=
  { fetch := .ok c1notes,
    write := fun n => if n.id = "2" then .error () else .ok (some ("path/" ++ n.id)),
    mark := .ok,
    scanner := none }

/-- Environment whose fetch returns an empty batch. -/
def emptyFetchEnv : CycleEnv :=
  { fetch := .ok [], write := fun _ => .ok none, mark := .ok, scanner := none }

/-- Four notes sharing one batch identifier plus a standalone note. -/
def c8notes : List Note :=
  [⟨"1", "W", some "b1"⟩, ⟨"2", "X", some "b1"⟩, ⟨"3", "Y", some "b1"⟩,
   ⟨"4", "Z", some "b1"⟩, ⟨"5", "Solo", none⟩]

/-! ## Helper characterizations -/

/-- Whether a write completed without throwing. -/
def writeOk : WriteOutcome → Bool
  | .error _ => false
  | .ok _ => true

/-- The truthy path a write produced, if any (`null` and the empty
string are falsy). -/
def writePath : WriteOutcome → Option String
  | .ok (some p) => if p ≠ "" then some p else none
  | .ok none => none
  | .error _ => none

/-- The write loop's three arrays, in closed form: `written` collects
the truthy paths, `syncedIds` the ids of non-throwing writes, and
`vaultPaths` the id/path pairs of truthy writes. -/
theorem cycleWrites_spec (write : Note → WriteOutcome) (notes : List Note) :
    cycleWrites write notes =
      (notes.filterMap fun n => writePath (write n),
       (notes.filter fun n => writeOk (write n)).map (·.id),
       notes.filterMap fun n => (writePath (write n)).map fun p => (n.id, p)) := by
  induction notes with
  | nil => rfl
  | cons note rest ih =>
    simp only [cycleWrites, ih, List.filterMap_cons, List.filter_cons]
    cases hw : write note with
    | error u => cases u; simp [writeOk, writePath, hw]
    | ok p =>
      cases p with
      | none => simp [writeOk, writePath, hw]
      | some q =>
        by_cases hq : q = ""
        · simp [writeOk, writePath, hw, hq]
        · simp [writeOk, writePath, hw, hq]

/-- `syncing` is false after any `sync()` call that started with it
false (the `finally` clause). -/
theorem sync_syncing_false (st : EngineState) (env : CycleEnv)
    (h : st.syncing = false) : (sync st env).1.syncing = false := by
  unfold sync
  rw [h]
  cases env.fetch with
  | errTokenExpired => simp
  | err e => simp
  | ok notes =>
    by_cases hn : notes.length = 0
    · simp [hn]
    · simp only [hn, if_false, Bool.false_eq_true]
      split
      · cases henv : env.mark <;> simp [henv]
      · simp

/-! ## Claim theorems -/

/-- C1.  In every sync cycle whose fetch returns a non-empty batch, the
id set passed to `markSynced` is exactly the ids of the notes whose
write did not throw (in fetch order): a note whose write throws is
absent (given the batch's ids are distinct), and a note whose write
returned a path or `null` is present; when every id is collected the
single `markSynced` call carries that set, and when no write survives
no call is made. -/
theorem markSynced_exact (st : EngineState) (env : CycleEnv) (notes : List Note)
    (hg : st.syncing = false) (hf : env.fetch = .ok notes) (hne : notes ≠ []) :
    (sync st env).2.2.markCalls =
      (if (notes.filter fun n => writeOk (env.write n)) = [] then []
       else [((notes.filter fun n => writeOk (env.write n)).map (·.id),
              notes.filterMap fun n => (writePath (env.write n)).map fun p => (n.id, p))])
    ∧ (∀ n ∈ notes, writeOk (env.write n) = true →
        n.id ∈ (notes.filter fun n => writeOk (env.write n)).map (·.id))
    ∧ ((notes.map (·.id)).Nodup →
        ∀ n ∈ notes, writeOk (env.write n) = false →
        n.id ∉ (notes.filter fun n => writeOk (env.write n)).map (·.id)) := by
  refine ⟨?_, ?_, ?_⟩
  · have hlen : ¬ notes.length = 0 := by
      simpa [List.length_eq_zero] using hne
    unfold sync
    rw [hg, hf]
    simp only [Bool.false_eq_true, if_false, hlen, cycleWrites_spec]
    have hif : ((notes.filter fun n => writeOk (env.write n)).map (·.id)).length > 0
        ↔ ¬ (notes.filter fun n => writeOk (env.write n)) = [] := by
      rw [List.length_map]
      exact List.length_pos
    by_cases hids : (notes.filter fun n => writeOk (env.write n)) = []
    · simp only [hids, List.map_nil, List.length_nil, gt_iff_lt, Nat.lt_irrefl, if_false]
      simp
    · have hpos : ((notes.filter fun n => writeOk (env.write n)).map (·.id)).length > 0 :=
        hif.mpr hids
      simp only [hpos, if_true, hids, if_false]
      cases env.mark <;> simp
  · intro n hn hw
    exact List.mem_map_of_mem _ (List.mem_filter.mpr ⟨hn, hw⟩)
  · intro hnd n hn hw hmem
    obtain ⟨m, hm, hid⟩ := List.mem_map.mp hmem
    have hm' := List.mem_filter.mp hm
    have : m = n := List.inj_on_of_nodup_map hnd hm'.1 hn hid
    rw [this] at hm'
    rw [hm'.2] at hw
    exact absurd hw (by simp)

/-- Branch equation: a call that hits the `syncing` guard. -/
theorem sync_guard (st : EngineState) (env : CycleEnv) (h : st.syncing = true) :
    sync st env = (st, .ret (-1), ⟨0, [], []⟩) := by
  unfold sync
  simp [h]

/-- Branch equation: `fetchUnsynced` throws `RefreshTokenExpiredError`. -/
theorem sync_fetch_expired (st : EngineState) (env : CycleEnv)
    (hg : st.syncing = false) (hf : env.fetch = .errTokenExpired) :
    sync st env = ({ st with intervalId := none, syncing := false },
      .ret (-1), ⟨1, [], []⟩) := by
  unfold sync
  simp [hg, hf]

/-- Branch equation: `fetchUnsynced` throws an ordinary error. -/
theorem sync_fetch_err (st : EngineState) (env : CycleEnv) (e : String)
    (hg : st.syncing = false) (hf : env.fetch = .err e) :
    sync st env = ({ st with consecutiveFailures := st.consecutiveFailures + 1,
                             syncing := false }, .thrown e, ⟨1, [], []⟩) := by
  unfold sync
  simp [hg, hf]

/-- Branch equation: the fetch returns an empty batch. -/
theorem sync_fetch_empty (st : EngineState) (env : CycleEnv)
    (hg : st.syncing = false) (hf : env.fetch = .ok []) :
    sync st env = ({ st with consecutiveFailures := 0, syncing := false },
      .ret 0, ⟨1, [], []⟩) := by
  unfold sync
  simp [hg, hf]

/-- Branch equation: a non-empty batch whose `markSynced` call throws
`RefreshTokenExpiredError`. -/
theorem sync_mark_expired (st : EngineState) (env : CycleEnv) (notes : List Note)
    (hg : st.syncing = false) (hf : env.fetch = .ok notes) (hne : notes ≠ [])
    (hids : (cycleWrites env.write notes).2.1 ≠ [])
    (hm : env.mark = .errTokenExpired) :
    sync st env = ({ st with intervalId := none, syncing := false }, .ret (-1),
      ⟨1, [((cycleWrites env.write notes).2.1, (cycleWrites env.write notes).2.2)],
        []⟩) := by
  have hlen : ¬ notes.length = 0 := by simpa [List.length_eq_zero] using hne
  have hpos : (cycleWrites env.write notes).2.1.length > 0 :=
    List.length_pos.mpr hids
  unfold sync
  simp [hg, hf, hlen, hpos, hm]

/-- Branch equation: a non-empty batch whose `markSynced` call throws
an ordinary error. -/
theorem sync_mark_err (st : EngineState) (env : CycleEnv) (notes : List Note)
    (e : String)
    (hg : st.syncing = false) (hf : env.fetch = .ok notes) (hne : notes ≠ [])
    (hids : (cycleWrites env.write notes).2.1 ≠ [])
    (hm : env.mark = .err e) :
    sync st env = ({ st with consecutiveFailures := st.consecutiveFailures + 1,
                             syncing := false }, .thrown e,
      ⟨1, [((cycleWrites env.write notes).2.1, (cycleWrites env.write notes).2.2)],
        []⟩) := by
  have hlen : ¬ notes.length = 0 := by simpa [List.length_eq_zero] using hne
  have hpos : (cycleWrites env.write notes).2.1.length > 0 :=
    List.length_pos.mpr hids
  unfold sync
  simp [hg, hf, hlen, hpos, hm]

/-- Branch equation: a non-empty batch whose cycle reaches the success
tail (no id collected, or the `markSynced` call succeeded). -/
theorem sync_success (st : EngineState) (env : CycleEnv) (notes : List Note)
    (hg : st.syncing = false) (hf : env.fetch = .ok notes) (hne : notes ≠ [])
    (hok : (cycleWrites env.write notes).2.1 = [] ∨ env.mark = .ok) :
    sync st env = ({ st with consecutiveFailures := 0, syncing := false },
      .ret ((cycleWrites env.write notes).1.length : Int),
      ⟨1,
        (if (cycleWrites env.write notes).2.1.length > 0 then
          [((cycleWrites env.write notes).2.1, (cycleWrites env.write notes).2.2)]
         else []),
        reconcileTrace env.scanner⟩) := by
  have hlen : ¬ notes.length = 0 := by simpa [List.length_eq_zero] using hne
  unfold sync
  rcases hok with hids | hm
  · simp [hg, hf, hlen, hids]
  · by_cases hids : (cycleWrites env.write notes).2.1 = []
    · simp [hg, hf, hlen, hids]
    · have hpos : (cycleWrites env.write notes).2.1.length > 0 :=
        List.length_pos.mpr hids
      simp [hg, hf, hlen, hpos, hm]

/-- A cycle whose top-level error propagates (is re-thrown) increments
the failure counter. -/
theorem sync_thrown_inc (st : EngineState) (env : CycleEnv) (e : String)
    (hg : st.syncing = false) (hres : (sync st env).2.1 = .thrown e) :
    (sync st env).1.consecutiveFailures = st.consecutiveFailures + 1 := by
  cases henv : env.fetch with
  | errTokenExpired =>
    rw [sync_fetch_expired st env hg henv] at hres
    exact absurd hres (by simp)
  | err e' =>
    rw [sync_fetch_err st env e' hg henv]
  | ok notes =>
    by_cases hnil : notes = []
    · rw [sync_fetch_empty st env hg (by rw [henv, hnil])] at hres
      exact absurd hres (by simp)
    · by_cases hids : (cycleWrites env.write notes).2.1 = []
      · rw [sync_success st env notes hg henv hnil (Or.inl hids)] at hres
        exact absurd hres (by simp)
      · cases hm : env.mark with
        | ok =>
          rw [sync_success st env notes hg henv hnil (Or.inr hm)] at hres
          exact absurd hres (by simp)
        | errTokenExpired =>
          rw [sync_mark_expired st env notes hg henv hnil hids hm] at hres
          exact absurd hres (by simp)
        | err e2 =>
          rw [sync_mark_err st env notes e2 hg henv hnil hids hm]

/-- A cycle returning a non-negative count (a completed cycle, the
empty batch included) resets the failure counter. -/
theorem sync_nonneg_resets (st : EngineState) (env : CycleEnv) (n : Int)
    (hg : st.syncing = false) (hres : (sync st env).2.1 = .ret n) (hn : 0 ≤ n) :
    (sync st env).1.consecutiveFailures = 0 := by
  cases henv : env.fetch with
  | errTokenExpired =>
    rw [sync_fetch_expired st env hg henv] at hres
    simp only [SyncResult.ret.injEq] at hres
    omega
  | err e' =>
    rw [sync_fetch_err st env e' hg henv] at hres
    exact absurd hres (by simp)
  | ok notes =>
    by_cases hnil : notes = []
    · rw [sync_fetch_empty st env hg (by rw [henv, hnil])]
    · by_cases hids : (cycleWrites env.write notes).2.1 = []
      · rw [sync_success st env notes hg henv hnil (Or.inl hids)]
      · cases hm : env.mark with
        | ok => rw [sync_success st env notes hg henv hnil (Or.inr hm)]
        | errTokenExpired =>
          rw [sync_mark_expired st env notes hg henv hnil hids hm] at hres
          simp only [SyncResult.ret.injEq] at hres
          omega
        | err e2 =>
          rw [sync_mark_err st env notes e2 hg henv hnil hids hm] at hres
          exact absurd hres (by simp)

/-- A call returning the skipped/terminal sentinel `-1` leaves the
failure counter untouched. -/
theorem sync_neg1_keeps (st : EngineState) (env : CycleEnv)
    (hres : (sync st env).2.1 = .ret (-1)) :
    (sync st env).1.consecutiveFailures = st.consecutiveFailures := by
  by_cases hg : st.syncing = true
  · rw [sync_guard st env hg]
  · rw [Bool.not_eq_true] at hg
    cases henv : env.fetch with
    | errTokenExpired => rw [sync_fetch_expired st env hg henv]
    | err e' =>
      rw [sync_fetch_err st env e' hg henv] at hres
      exact absurd hres (by simp)
    | ok notes =>
      by_cases hnil : notes = []
      · rw [sync_fetch_empty st env hg (by rw [henv, hnil])] at hres
        simp only [SyncResult.ret.injEq] at hres
        omega
      · by_cases hids : (cycleWrites env.write notes).2.1 = []
        · rw [sync_success st env notes hg henv hnil (Or.inl hids)] at hres
          simp only [SyncResult.ret.injEq] at hres
          omega
        · cases hm : env.mark with
          | ok =>
            rw [sync_success st env notes hg henv hnil (Or.inr hm)] at hres
            simp only [SyncResult.ret.injEq] at hres
            omega
          | errTokenExpired =>
            rw [sync_mark_expired st env notes hg henv hnil hids hm]
          | err e2 =>
            rw [sync_mark_err st env notes e2 hg henv hnil hids hm] at hres
            exact absurd hres (by simp)

theorem iterCycles_succ (st : EngineState) (envs : Nat → CycleEnv) (k : Nat) :
    iterCycles st envs (k + 1) = (sync (iterCycles st envs k) (envs k)).1 := by
  simp [iterCycles, List.range_succ]

/-- Counter growth under consecutive throwing cycles. -/
theorem iterCycles_fails (st : EngineState) (envs : Nat → CycleEnv) (k : Nat)
    (hg : st.syncing = false)
    (hf : ∀ i, i < k → ∀ s : EngineState, s.syncing = false →
      ∃ e, (sync s (envs i)).2.1 = .thrown e) :
    (iterCycles st envs k).consecutiveFailures = st.consecutiveFailures + k
    ∧ (iterCycles st envs k).syncing = false := by
  induction k with
  | zero => exact ⟨rfl, hg⟩
  | succ k ih =>
    have ih' := ih (fun i hi s hs => hf i (by omega) s hs)
    obtain ⟨e, he⟩ := hf k (by omega) _ ih'.2
    rw [iterCycles_succ]
    constructor
    · rw [sync_thrown_inc _ _ e ih'.2 he, ih'.1]
      omega
    · exact sync_syncing_false _ _ ih'.2

/-- C4.  `consecutiveFailures` increments exactly on cycles that
propagate a retryable top-level error, resets to zero on every cycle
that runs to completion (including one whose fetch returned zero
notes, which returns `0`), and is untouched by skipped calls and the
terminal credential error (both return `-1`); consequently `k`
consecutive throwing cycles take a zeroed counter to `k`, and one
completed cycle resets it to `0`. -/
theorem consecutiveFailures_law :
    (∀ st env e, st.syncing = false → (sync st env).2.1 = .thrown e →
        (sync st env).1.consecutiveFailures = st.consecutiveFailures + 1)
    ∧ (∀ st env n, st.syncing = false → (sync st env).2.1 = .ret n → 0 ≤ n →
        (sync st env).1.consecutiveFailures = 0)
    ∧ (∀ st env, (sync st env).2.1 = .ret (-1) →
        (sync st env).1.consecutiveFailures = st.consecutiveFailures)
    ∧ (∀ st (envs : Nat → CycleEnv) k, st.syncing = false →
        st.consecutiveFailures = 0 →
        (∀ i, i < k → ∀ s : EngineState, s.syncing = false →
          ∃ e, (sync s (envs i)).2.1 = .thrown e) →
        (iterCycles st envs k).consecutiveFailures = k
        ∧ ∀ env n, (sync (iterCycles st envs k) env).2.1 = .ret n → 0 ≤ n →
            (sync (iterCycles st envs k) env).1.consecutiveFailures = 0) := by
  refine ⟨sync_thrown_inc, sync_nonneg_resets, sync_neg1_keeps, ?_⟩
  intro st envs k hg h0 hf
  have h := iterCycles_fails st envs k hg hf
  rw [h0] at h
  refine ⟨by omega, ?_⟩
  intro env n hres hn
  exact sync_nonneg_resets _ env n h.2 hres hn

/-- C10.  `sync` returns `-1` both for a guard-skipped call (no state
change, no fetch) and on the terminal credential error, which it
swallows after clearing the timer (from the fetch and from the
mark-synced position); and every non-negative return value is the
number of notes whose write returned a truthy path — dedup-skipped
notes are in the acknowledged id set but not in the count. -/
theorem sync_return_values :
    (∀ st env, st.syncing = true → sync st env = (st, .ret (-1), ⟨0, [], []⟩))
    ∧ (∀ st env, st.syncing = false → env.fetch = .errTokenExpired →
        sync st env = ({ st with intervalId := none, syncing := false },
          .ret (-1), ⟨1, [], []⟩))
    ∧ (∀ st env notes, st.syncing = false → env.fetch = .ok notes → notes ≠ [] →
        (cycleWrites env.write notes).2.1 ≠ [] → env.mark = .errTokenExpired →
        (sync st env).1.intervalId = none ∧ (sync st env).2.1 = .ret (-1))
    ∧ (∀ st env notes n, st.syncing = false → env.fetch = .ok notes →
        (sync st env).2.1 = .ret n → 0 ≤ n →
        n = ((notes.filterMap fun m => writePath (env.write m)).length : Int)
        ∧ ∀ m ∈ notes, env.write m = .ok none →
            m.id ∈ (cycleWrites env.write notes).2.1) := by
  refine ⟨sync_guard, sync_fetch_expired, ?_, ?_⟩
  · intro st env notes hg hf hne hids hm
    rw [sync_mark_expired st env notes hg hf hne hids hm]
    exact ⟨rfl, rfl⟩
  · intro st env notes n hg hf hres hn
    have hmem : ∀ m ∈ notes, env.write m = .ok none →
        m.id ∈ (cycleWrites env.write notes).2.1 := by
      intro m hm hw
      rw [cycleWrites_spec]
      exact List.mem_map_of_mem _
        (List.mem_filter.mpr ⟨hm, by rw [hw]; rfl⟩)
    by_cases hnil : notes = []
    · subst hnil
      rw [sync_fetch_empty st env hg hf] at hres
      simp only [SyncResult.ret.injEq] at hres
      refine ⟨by simp [← hres], ?_⟩
      intro m hm
      exact absurd hm (by simp)
    · by_cases hids : (cycleWrites env.write notes).2.1 = []
      · rw [sync_success st env notes hg hf hnil (Or.inl hids)] at hres
        simp only [SyncResult.ret.injEq] at hres
        refine ⟨?_, hmem⟩
        rw [← hres, cycleWrites_spec]
      · cases hmk : env.mark with
        | ok =>
          rw [sync_success st env notes hg hf hnil (Or.inr hmk)] at hres
          simp only [SyncResult.ret.injEq] at hres
          refine ⟨?_, hmem⟩
          rw [← hres, cycleWrites_spec]
        | errTokenExpired =>
          rw [sync_mark_expired st env notes hg hf hnil hids hmk] at hres
          simp only [SyncResult.ret.injEq] at hres
          omega
        | err e2 =>
          rw [sync_mark_err st env notes e2 hg hf hnil hids hmk] at hres
          exact absurd hres (by simp)

/-- C6.  A 401/403 rejection of the renewal call clears the stored
access credential and persists (`1` settings save), raising the
distinct `RefreshTokenExpiredError`; the cleared credential is invalid
at every instant, and a repeat of the rejected exchange fails with the
same error; and a cycle in which that error surfaces clears the
engine's interval without touching the backoff counter and returns the
sentinel instead of rethrowing. -/
theorem renewal_expired_flow :
    (∀ s e, s.refreshToken ≠ "" →
        (extractHttpStatus e = some 401 ∨ extractHttpStatus e = some 403) →
        doRefresh s (.err e)
          = ({ s with accessToken := "", accessTokenExpiresAt := 0 }, 1,
              .error .refreshTokenExpired))
    ∧ (∀ (s : Settings) (now : Int),
        isAccessTokenValid { s with accessToken := "", accessTokenExpiresAt := 0 } now
          = false)
    ∧ (∀ (s : Settings) (e : String),
        (extractHttpStatus e = some 401 ∨ extractHttpStatus e = some 403) →
        (doRefresh { s with accessToken := "", accessTokenExpiresAt := 0 } (.err e)).2.2
          = .error .refreshTokenExpired)
    ∧ (∀ st env, st.syncing = false → env.fetch = .errTokenExpired →
        sync st env = ({ st with intervalId := none, syncing := false },
          .ret (-1), ⟨1, [], []⟩)) := by
  refine ⟨?_, ?_, ?_, sync_fetch_expired⟩
  · intro s e hr hst
    unfold doRefresh
    rw [if_neg hr]
    rcases hst with h | h <;> simp [h]
  · intro s now
    simp [isAccessTokenValid]
  · intro s e hst
    unfold doRefresh
    by_cases hr : s.refreshToken = "" <;>
      rcases hst with h | h <;> simp [hr, h]

/-- The retry loop, run over uniformly failing retryable attempts,
rethrows the error of the final attempt. -/
theorem retryLoop_exhaust {α : Type} (attempts : Attempt α) (maxRetries : Nat)
    (es : Nat → String)
    (hall : ∀ i, i < maxRetries → attempts i = .error (es i))
    (hret : ∀ i, i < maxRetries → isRetryable (es i) = true) :
    ∀ remaining, 1 ≤ remaining → remaining ≤ maxRetries → ∀ lastErr,
      (retryLoop attempts maxRetries remaining lastErr).1
        = .error (some (es (maxRetries - 1))) := by
  intro remaining
  induction remaining with
  | zero => intro h1; omega
  | succ r ih =>
    intro _ hle lastErr
    have hidx : maxRetries - (r + 1) < maxRetries := by omega
    simp only [retryLoop]
    rw [hall _ hidx]
    by_cases hr : r = 0
    · subst hr
      have h1 : maxRetries - (0 + 1) = maxRetries - 1 := by omega
      simp [h1]
    · have hne : (maxRetries - (r + 1) == maxRetries - 1) = false := by
        simp only [beq_eq_false_iff_ne, ne_eq]
        omega
      simp [hret _ hidx, hne, ih (by omega) (by omega)]

/-- C5.  The executor treats statuses 408, 429 and 5xx as retryable and
every other 4xx as terminal (thrown at once, one attempt only); a
failure with no extractable status is retryable; and on exhausting all
attempts the error of the final attempt is rethrown unchanged. -/
theorem retry_classification :
    (∀ e, extractHttpStatus e = none → isRetryable e = true)
    ∧ (∀ e s, extractHttpStatus e = some s → (s = 408 ∨ s = 429 ∨ 500 ≤ s) →
        isRetryable e = true)
    ∧ (∀ e s, extractHttpStatus e = some s → 400 ≤ s → s < 500 → s ≠ 408 →
        s ≠ 429 → isRetryable e = false)
    ∧ (∀ (α : Type) (attempts : Attempt α) maxRetries e, 1 ≤ maxRetries →
        attempts 0 = .error e → isRetryable e = false →
        requestWithRetry attempts maxRetries = (.error (some e), 1))
    ∧ (∀ (α : Type) (attempts : Attempt α) maxRetries (es : Nat → String),
        1 ≤ maxRetries →
        (∀ i, i < maxRetries → attempts i = .error (es i)) →
        (∀ i, i < maxRetries → isRetryable (es i) = true) →
        (requestWithRetry attempts maxRetries).1
          = .error (some (es (maxRetries - 1)))) := by
  refine ⟨?_, ?_, ?_, ?_, ?_⟩
  · intro e h
    unfold isRetryable
    rw [h]
  · intro e s h hcase
    unfold isRetryable
    rw [h]
    rcases hcase with rfl | rfl | hge
    · rfl
    · rfl
    · simp [Nat.le_of_lt, hge]
  · intro e s h h400 h500 h408 h429
    unfold isRetryable
    rw [h]
    have b1 : (s == 408) = false := by simpa using h408
    have b2 : (s == 429) = false := by simpa using h429
    have b3 : decide (s ≥ 500) = false := by simpa using by omega
    simp [b1, b2, b3]
  · intro α attempts maxRetries e h1 h0 hnr
    obtain ⟨m, rfl⟩ : ∃ m, maxRetries = m + 1 := ⟨maxRetries - 1, by omega⟩
    simp only [requestWithRetry, retryLoop, Nat.sub_self, h0, hnr]
    simp
  · intro α attempts maxRetries es h1 hall hret
    exact retryLoop_exhaust attempts maxRetries es hall hret maxRetries h1 le_rfl none

/-- Entering `ensureAccessToken` while a refresh is in flight and the
token is invalid only moves callers from `pending` to `waiting`: no new
exchange starts. -/
theorem tokenRun_enters (s : Settings) (now : Int) (m : Nat)
    (hv : isAccessTokenValid s now = false) :
    ∀ (w : TokenWorld), w.settings = s → w.now = now → w.refreshing = true →
      m ≤ w.pending →
      tokenRun w (List.replicate m .enter)
        = { w with pending := w.pending - m, waiting := w.waiting + m } := by
  induction m with
  | zero => intro w _ _ _ _; simp [tokenRun]
  | succ m ih =>
    intro w hs hn hr hle
    rw [List.replicate_succ]
    have hp : ¬ w.pending = 0 := by omega
    have hstep : tokenStep w .enter
        = { w with pending := w.pending - 1, waiting := w.waiting + 1 } := by
      simp only [tokenStep, hp, if_false, hs, hn, hv, hr, if_true]
      simp
    have : tokenRun w (.enter :: List.replicate m .enter)
        = tokenRun (tokenStep w .enter) (List.replicate m .enter) := rfl
    rw [this, hstep, ih _ (by simp [hs]) (by simp [hn]) (by simp [hr]) (by simp; omega)]
    have e1 : w.pending - 1 - m = w.pending - (m + 1) := by omega
    have e2 : w.waiting + 1 + m = w.waiting + (m + 1) := by omega
    simp [e1, e2]

/-- C3.  Any number `k ≥ 1` of concurrent callers that all need renewal
while none is in flight start exactly one renewal exchange (one
`doRefresh`, hence — the refresh token being present — one
`POST /v1/auth/refresh` via `requestWithRetry`); every caller observes
the result of that single shared operation; the settle step installs
`doRefresh`'s settings, replacing access and renewal credentials
together on success; the pending handle is clear afterwards, so a later
caller that still finds the token invalid starts a fresh exchange. -/
theorem refresh_dedup (s : Settings) (now : Int) (k : Nat) (http : RefreshHttp)
    (hk : 1 ≤ k) (hv : isAccessTokenValid s now = false)
    (hr : s.refreshToken ≠ "") :
    (tokenRun ⟨s, now, false, 0, k, 0, []⟩
        (List.replicate k .enter ++ [.settle http])).exchanges = 1
    ∧ (tokenRun ⟨s, now, false, 0, k, 0, []⟩
        (List.replicate k .enter ++ [.settle http])).refreshing = false
    ∧ (tokenRun ⟨s, now, false, 0, k, 0, []⟩
        (List.replicate k .enter ++ [.settle http])).results
        = List.replicate k (doRefresh s http).2.2
    ∧ (tokenRun ⟨s, now, false, 0, k, 0, []⟩
        (List.replicate k .enter ++ [.settle http])).settings
        = (doRefresh s http).1
    ∧ (∀ a exp r, http = .ok a exp r →
        (doRefresh s http).1.accessToken = a
        ∧ (doRefresh s http).1.refreshToken = r
        ∧ (doRefresh s http).1.accessTokenExpiresAt = exp)
    ∧ (∀ w : TokenWorld, w.refreshing = false → w.pending ≠ 0 →
        isAccessTokenValid w.settings w.now = false →
        (tokenStep w .enter).exchanges = w.exchanges + 1
        ∧ (tokenStep w .enter).refreshing = true) := by
  obtain ⟨m, rfl⟩ : ∃ m, k = m + 1 := ⟨k - 1, by omega⟩
  have hrun : tokenRun ⟨s, now, false, 0, m + 1, 0, []⟩
      (List.replicate (m + 1) .enter ++ [.settle http])
      = ⟨(doRefresh s http).1, now, false, 1, 0, 0,
          List.replicate (m + 1) (doRefresh s http).2.2⟩ := by
    rw [show List.replicate (m + 1) TokenEv.enter ++ [TokenEv.settle http]
        = TokenEv.enter :: (List.replicate m TokenEv.enter ++ [TokenEv.settle http])
      from by rw [List.replicate_succ]; rfl]
    have h1 : tokenStep ⟨s, now, false, 0, m + 1, 0, []⟩ .enter
        = ⟨s, now, true, 1, m, 1, []⟩ := by
      simp [tokenStep, hv]
    have h2 : tokenRun ⟨s, now, true, 1, m, 1, ([] : List (Except AuthErr Unit))⟩
        (List.replicate m .enter)
        = ⟨s, now, true, 1, 0, 1 + m, []⟩ := by
      rw [tokenRun_enters s now m hv _ rfl rfl rfl (by simp)]
      simp
    have hcons : tokenRun ⟨s, now, false, 0, m + 1, 0, []⟩
        (TokenEv.enter :: (List.replicate m TokenEv.enter ++ [TokenEv.settle http]))
        = tokenRun (tokenStep ⟨s, now, false, 0, m + 1, 0, []⟩ .enter)
            (List.replicate m TokenEv.enter ++ [TokenEv.settle http]) := rfl
    rw [hcons, h1]
    have happ : tokenRun ⟨s, now, true, 1, m, 1, []⟩
        (List.replicate m TokenEv.enter ++ [TokenEv.settle http])
        = tokenStep (tokenRun ⟨s, now, true, 1, m, 1, []⟩
            (List.replicate m TokenEv.enter)) (.settle http) := by
      simp [tokenRun, List.foldl_append]
    rw [happ, h2]
    simp only [tokenStep, if_true]
    have : 1 + m = m + 1 := by omega
    simp [this]
  refine ⟨by rw [hrun], by rw [hrun], by rw [hrun], by rw [hrun], ?_, ?_⟩
  · intro a exp r hh
    subst hh
    unfold doRefresh
    rw [if_neg hr]
    exact ⟨rfl, rfl, rfl⟩
  · intro w hwr hwp hwv
    simp [tokenStep, hwp, hwv, hwr]

/-- Guard-skip segment: a call entering while `syncing` is set returns
`-1` without touching the engine or issuing a fetch. -/
theorem microStep_entry_busy (env : CycleEnv) (st : EngineState)
    (h : st.syncing = true) :
    microStep env st .entry = (st, .done (.ret (-1)), 0) := by
  simp [microStep, h]

/-- Guard-pass segment: a call entering while `syncing` is clear sets
it and issues the fetch. -/
theorem microStep_entry_free (env : CycleEnv) (st : EngineState)
    (h : st.syncing = false) :
    microStep env st .entry = ({ st with syncing := true }, .fetching, 1) := by
  simp [microStep, h]

/-- A segment in the middle of a cycle either stays in the middle with
the engine untouched, or finishes the cycle with `syncing` cleared by
the `finally`. -/
theorem microStep_mid (env : CycleEnv) (st : EngineState) (ph : Phase)
    (h : midCycle ph = true) :
    ((microStep env st ph).1 = st ∧ midCycle (microStep env st ph).2.1 = true)
    ∨ ((∃ r, (microStep env st ph).2.1 = .done r)
        ∧ (microStep env st ph).1.syncing = false) := by
  cases ph with
  | entry => simp [midCycle] at h
  | done r => simp [midCycle] at h
  | fetching =>
    cases henv : env.fetch with
    | errTokenExpired => right; simp [microStep, henv]
    | err e => right; simp [microStep, henv]
    | ok notes =>
      by_cases hn : notes.length = 0
      · right; simp [microStep, henv, hn]
      · left; simp [microStep, henv, hn, midCycle]
  | writing pending w s v =>
    cases pending with
    | nil =>
      left
      refine ⟨rfl, ?_⟩
      simp only [microStep, afterWrites]
      split <;> rfl
    | cons note rest =>
      cases rest with
      | nil =>
        left
        refine ⟨rfl, ?_⟩
        simp only [microStep, afterWrites]
        split <;> split <;> rfl
      | cons n2 r2 =>
        left
        refine ⟨rfl, ?_⟩
        simp only [microStep]
        split <;> rfl
  | marking w s v =>
    cases henv : env.mark with
    | ok => left; simp [microStep, henv, midCycle]
    | errTokenExpired => right; simp [microStep, henv]
    | err e => right; simp [microStep, henv]
  | reconciling c => right; simp [microStep, midCycle]

/-- `Jinv` is preserved by every scheduler step. -/
theorem Jinv_step (envA envB : CycleEnv) (w : TwoSync) (who : Who)
    (h : Jinv w) : Jinv (twoStep envA envB w who) := by
  obtain ⟨h1, h2⟩ := h
  cases who with
  | A =>
    have heq : twoStep envA envB w .A
        = ⟨(microStep envA w.engine w.a).1, (microStep envA w.engine w.a).2.1,
           w.b, w.aFetch + (microStep envA w.engine w.a).2.2, w.bFetch⟩ := rfl
    rw [heq]
    by_cases hmid : midCycle w.a = true
    · rcases microStep_mid envA w.engine w.a hmid with ⟨he, hm⟩ | ⟨⟨r, hd⟩, hsf⟩
      · refine ⟨?_, ?_⟩
        · show (microStep envA w.engine w.a).1.syncing
              = (midCycle (microStep envA w.engine w.a).2.1 || midCycle w.b)
          rw [he, hm, h1, hmid]
        · show ¬(midCycle (microStep envA w.engine w.a).2.1 = true
              ∧ midCycle w.b = true)
          rw [hm]
          intro hc
          exact h2 ⟨hmid, hc.2⟩
      · have hbf : midCycle w.b = false := by
          cases hmb : midCycle w.b
          · rfl
          · exact absurd ⟨hmid, hmb⟩ h2
        refine ⟨?_, ?_⟩
        · show (microStep envA w.engine w.a).1.syncing
              = (midCycle (microStep envA w.engine w.a).2.1 || midCycle w.b)
          rw [hsf, hd, hbf]
          rfl
        · show ¬(midCycle (microStep envA w.engine w.a).2.1 = true
              ∧ midCycle w.b = true)
          rw [hd]
          intro hc
          exact absurd hc.1 (by simp [midCycle])
    · have hcase : w.a = .entry ∨ ∃ r0, w.a = .done r0 := by
        cases hwa : w.a with
        | entry => exact Or.inl rfl
        | done r0 => exact Or.inr ⟨r0, rfl⟩
        | fetching => exact absurd (by rw [hwa]; rfl) hmid
        | writing p wr ids vps => exact absurd (by rw [hwa]; rfl) hmid
        | marking wr ids vps => exact absurd (by rw [hwa]; rfl) hmid
        | reconciling c => exact absurd (by rw [hwa]; rfl) hmid
      rcases hcase with hent | ⟨r0, hdone⟩
      · by_cases hs : w.engine.syncing = true
        · refine ⟨?_, ?_⟩
          · show (microStep envA w.engine w.a).1.syncing
                = (midCycle (microStep envA w.engine w.a).2.1 || midCycle w.b)
            rw [hent, microStep_entry_busy envA w.engine hs]
            show w.engine.syncing = (midCycle (.done (.ret (-1))) || midCycle w.b)
            rw [h1, hent]
            rfl
          · show ¬(midCycle (microStep envA w.engine w.a).2.1 = true
                ∧ midCycle w.b = true)
            rw [hent, microStep_entry_busy envA w.engine hs]
            intro hc
            exact absurd hc.1 (by simp [midCycle])
        · rw [Bool.not_eq_true] at hs
          have hbf : midCycle w.b = false := by
            rw [hent] at h1
            rw [hs] at h1
            simpa [midCycle] using h1.symm
          refine ⟨?_, ?_⟩
          · show (microStep envA w.engine w.a).1.syncing
                = (midCycle (microStep envA w.engine w.a).2.1 || midCycle w.b)
            rw [hent, microStep_entry_free envA w.engine hs]
            show true = (midCycle Phase.fetching || midCycle w.b)
            rw [hbf]
            rfl
          · show ¬(midCycle (microStep envA w.engine w.a).2.1 = true
                ∧ midCycle w.b = true)
            rw [hent, microStep_entry_free envA w.engine hs]
            intro hc
            rw [hbf] at hc
            exact absurd hc.2 (by simp)
      · refine ⟨?_, ?_⟩
        · show (microStep envA w.engine w.a).1.syncing
              = (midCycle (microStep envA w.engine w.a).2.1 || midCycle w.b)
          rw [hdone]
          show w.engine.syncing = (midCycle (Phase.done r0) || midCycle w.b)
          rw [h1, hdone]
        · show ¬(midCycle (microStep envA w.engine w.a).2.1 = true
              ∧ midCycle w.b = true)
          rw [hdone]
          intro hc
          exact absurd hc.1 (by simp [midCycle, microStep])
  | B =>
    have heq : twoStep envA envB w .B
        = ⟨(microStep envB w.engine w.b).1, w.a, (microStep envB w.engine w.b).2.1,
           w.aFetch, w.bFetch + (microStep envB w.engine w.b).2.2⟩ := rfl
    rw [heq]
    by_cases hmid : midCycle w.b = true
    · rcases microStep_mid envB w.engine w.b hmid with ⟨he, hm⟩ | ⟨⟨r, hd⟩, hsf⟩
      · refine ⟨?_, ?_⟩
        · show (microStep envB w.engine w.b).1.syncing
              = (midCycle w.a || midCycle (microStep envB w.engine w.b).2.1)
          rw [he, hm, h1, hmid]
        · show ¬(midCycle w.a = true
              ∧ midCycle (microStep envB w.engine w.b).2.1 = true)
          rw [hm]
          intro hc
          exact h2 ⟨hc.1, hmid⟩
      · have haf : midCycle w.a = false := by
          cases hma : midCycle w.a
          · rfl
          · exact absurd ⟨hma, hmid⟩ h2
        refine ⟨?_, ?_⟩
        · show (microStep envB w.engine w.b).1.syncing
              = (midCycle w.a || midCycle (microStep envB w.engine w.b).2.1)
          rw [hsf, hd, haf]
          rfl
        · show ¬(midCycle w.a = true
              ∧ midCycle (microStep envB w.engine w.b).2.1 = true)
          rw [hd]
          intro hc
          exact absurd hc.2 (by simp [midCycle])
    · have hcase : w.b = .entry ∨ ∃ r0, w.b = .done r0 := by
        cases hwb : w.b with
        | entry => exact Or.inl rfl
        | done r0 => exact Or.inr ⟨r0, rfl⟩
        | fetching => exact absurd (by rw [hwb]; rfl) hmid
        | writing p wr ids vps => exact absurd (by rw [hwb]; rfl) hmid
        | marking wr ids vps => exact absurd (by rw [hwb]; rfl) hmid
        | reconciling c => exact absurd (by rw [hwb]; rfl) hmid
      rcases hcase with hent | ⟨r0, hdone⟩
      · by_cases hs : w.engine.syncing = true
        · refine ⟨?_, ?_⟩
          · show (microStep envB w.engine w.b).1.syncing
                = (midCycle w.a || midCycle (microStep envB w.engine w.b).2.1)
            rw [hent, microStep_entry_busy envB w.engine hs]
            show w.engine.syncing = (midCycle w.a || midCycle (.done (.ret (-1))))
            rw [h1, hent]
            simp [midCycle]
          · show ¬(midCycle w.a = true
                ∧ midCycle (microStep envB w.engine w.b).2.1 = true)
            rw [hent, microStep_entry_busy envB w.engine hs]
            intro hc
            exact absurd hc.2 (by simp [midCycle])
        · rw [Bool.not_eq_true] at hs
          have haf : midCycle w.a = false := by
            rw [hent] at h1
            rw [hs] at h1
            simpa [midCycle] using h1.symm
          refine ⟨?_, ?_⟩
          · show (microStep envB w.engine w.b).1.syncing
                = (midCycle w.a || midCycle (microStep envB w.engine w.b).2.1)
            rw [hent, microStep_entry_free envB w.engine hs]
            show true = (midCycle w.a || midCycle Phase.fetching)
            rw [haf]
            rfl
          · show ¬(midCycle w.a = true
                ∧ midCycle (microStep envB w.engine w.b).2.1 = true)
            rw [hent, microStep_entry_free envB w.engine hs]
            intro hc
            rw [haf] at hc
            exact absurd hc.1 (by simp)
      · refine ⟨?_, ?_⟩
        · show (microStep envB w.engine w.b).1.syncing
              = (midCycle w.a || midCycle (microStep envB w.engine w.b).2.1)
          rw [hdone]
          show w.engine.syncing = (midCycle w.a || midCycle (Phase.done r0))
          rw [h1, hdone]
        · show ¬(midCycle w.a = true
              ∧ midCycle (microStep envB w.engine w.b).2.1 = true)
          rw [hdone]
          intro hc
          exact absurd hc.2 (by simp [midCycle, microStep])

/-- `Jinv` holds in every state reachable by a schedule. -/
theorem twoRun_Jinv (envA envB : CycleEnv) (sched : List Who) :
    ∀ w, Jinv w → Jinv (twoRun envA envB w sched) := by
  induction sched with
  | nil => intro w h; exact h
  | cons e es ih =>
    intro w h
    exact ih _ (Jinv_step envA envB w e h)

/-- C2.  Along every interleaving of two `sync()` calls against an idle
engine, the `syncing` flag is set exactly while one call is inside its
cycle and the two are never inside simultaneously; moreover whenever
one call is about to enter while the other is mid-cycle, its next
segment returns the skipped sentinel `-1` with the engine untouched and
its `fetchUnsynced` count unchanged. -/
theorem sync_single_flight (envA envB : CycleEnv) (st : EngineState)
    (hst : st.syncing = false) (sched : List Who) :
    Jinv (twoRun envA envB ⟨st, .entry, .entry, 0, 0⟩ sched)
    ∧ ((twoRun envA envB ⟨st, .entry, .entry, 0, 0⟩ sched).a = .entry →
        midCycle (twoRun envA envB ⟨st, .entry, .entry, 0, 0⟩ sched).b = true →
        twoStep envA envB (twoRun envA envB ⟨st, .entry, .entry, 0, 0⟩ sched) .A
          = { twoRun envA envB ⟨st, .entry, .entry, 0, 0⟩ sched with
              a := .done (.ret (-1)) })
    ∧ ((twoRun envA envB ⟨st, .entry, .entry, 0, 0⟩ sched).b = .entry →
        midCycle (twoRun envA envB ⟨st, .entry, .entry, 0, 0⟩ sched).a = true →
        twoStep envA envB (twoRun envA envB ⟨st, .entry, .entry, 0, 0⟩ sched) .B
          = { twoRun envA envB ⟨st, .entry, .entry, 0, 0⟩ sched with
              b := .done (.ret (-1)) }) := by
  have hJ0 : Jinv ⟨st, .entry, .entry, 0, 0⟩ := by
    constructor
    · simpa [midCycle] using hst
    · simp [midCycle]
  have hJ := twoRun_Jinv envA envB sched _ hJ0
  set w := twoRun envA envB ⟨st, .entry, .entry, 0, 0⟩ sched with hw
  refine ⟨hJ, ?_, ?_⟩
  · intro ha hb
    have hsy : w.engine.syncing = true := by
      rw [hJ.1, ha, hb]
      rfl
    have hstep := microStep_entry_busy envA w.engine hsy
    show (⟨(microStep envA w.engine w.a).1, (microStep envA w.engine w.a).2.1,
           w.b, w.aFetch + (microStep envA w.engine w.a).2.2, w.bFetch⟩ : TwoSync)
        = { w with a := .done (.ret (-1)) }
    rw [ha, hstep]
    simp
  · intro hb ha
    have hsy : w.engine.syncing = true := by
      rw [hJ.1, ha, hb]
      rfl
    have hstep := microStep_entry_busy envB w.engine hsy
    show (⟨(microStep envB w.engine w.b).1, w.a, (microStep envB w.engine w.b).2.1,
           w.aFetch, w.bFetch + (microStep envB w.engine w.b).2.2⟩ : TwoSync)
        = { w with b := .done (.ret (-1)) }
    rw [hb, hstep]
    simp

theorem buildBatchSiblings_eq (notes : List Note) :
    buildBatchSiblings notes = notes.filterMap (sibEntry notes) := rfl

theorem sibEntry_key (notes : List Note) (m : Note) (e : String × List String)
    (hf : sibEntry notes m = some e) : e.1 = m.id := by
  unfold sibEntry at hf
  cases hb : m.source_batch_id with
  | none =>
    simp only [hb] at hf
    exact absurd hf (by simp)
  | some b =>
    simp only [hb] at hf
    split at hf
    · rw [← Option.some_inj.mp hf]
    · exact absurd hf (by simp)

/-- Looking a note's id up in a keyed `filterMap` over a list with
injective ids retrieves exactly that note's entry. -/
theorem find_filterMap_key (f : Note → Option (String × List String))
    (hkey : ∀ m e, f m = some e → e.1 = m.id) :
    ∀ (l : List Note) (n : Note), n ∈ l →
      (∀ m ∈ l, ∀ m' ∈ l, m.id = m'.id → m = m') →
      (l.filterMap f).find? (fun kv => kv.1 == n.id) = f n := by
  intro l
  induction l with
  | nil => intro n hn; exact absurd hn (by simp)
  | cons m t ih =>
    intro n hn hinj
    by_cases hmn : m = n
    · subst hmn
      cases hf : f m with
      | none =>
        simp only [List.filterMap_cons, hf]
        refine List.find?_eq_none.mpr ?_
        intro kv hkv
        obtain ⟨m', hm', hfm'⟩ := List.mem_filterMap.mp hkv
        have hk := hkey m' kv hfm'
        simp only [beq_iff_eq, hk]
        intro hid
        have hmm : m' = m := hinj m' (by simp [hm']) m (by simp) hid
        rw [hmm, hf] at hfm'
        exact absurd hfm' (by simp)
      | some e =>
        simp only [List.filterMap_cons, hf]
        have hbeq : (e.1 == m.id) = true := by
          rw [hkey m e hf]
          simp
        simp [List.find?_cons, hbeq]
    · have hnt : n ∈ t := by
        cases List.mem_cons.mp hn with
        | inl h => exact absurd h.symm hmn
        | inr h => exact h
      have hinj' : ∀ x ∈ t, ∀ y ∈ t, x.id = y.id → x = y := by
        intro x hx y hy
        exact hinj x (by simp [hx]) y (by simp [hy])
      cases hf : f m with
      | none =>
        simp only [List.filterMap_cons, hf]
        exact ih n hnt hinj'
      | some e =>
        simp only [List.filterMap_cons, hf]
        have hbeq : (e.1 == n.id) = false := by
          rw [hkey m e hf]
          simp only [beq_eq_false_iff_ne, ne_eq]
          intro hid
          exact hmn (hinj m (by simp) n (by simp [hnt]) hid)
        rw [List.find?_cons_of_neg]
        · exact ih n hnt hinj'
        · simp [hbeq]

/-- C8 (modelled from the spec; the grouping function is absent from
the bundled sources).  The dispatch hands each fetched note — in fetch
order, one dispatch per note — the display names of its batch siblings:
nothing for a note without a batch identifier or whose batch group has
a single member, and for a group of two or more the names of every
other group member (in fetch order), its own name excluded. -/
theorem batch_siblings_spec (notes : List Note)
    (hnd : (notes.map (·.id)).Nodup) :
    (dispatchedSiblings notes).map Prod.fst = notes
    ∧ ∀ p ∈ dispatchedSiblings notes,
        (p.1.source_batch_id = none → p.2 = none)
        ∧ (∀ b, p.1.source_batch_id = some b →
            ((notes.filter fun m => m.source_batch_id == some b).length ≤ 1 →
              p.2 = none)
            ∧ (2 ≤ (notes.filter fun m => m.source_batch_id == some b).length →
              p.2 = some
                (((notes.filter fun m => m.source_batch_id == some b).filter
                    fun m => m.id ≠ p.1.id).map (·.name)))) := by
  have hinj : ∀ m ∈ notes, ∀ m' ∈ notes, m.id = m'.id → m = m' := by
    intro x hx y hy
    exact List.inj_on_of_nodup_map hnd hx hy
  constructor
  · simp only [dispatchedSiblings, List.map_map]
    exact List.map_id notes
  · intro p hp
    obtain ⟨n, hn, hpn⟩ := List.mem_map.mp hp
    have hfind := find_filterMap_key (sibEntry notes) (sibEntry_key notes)
      notes n hn hinj
    have hlook : p.2 = ((notes.filterMap (sibEntry notes)).find?
        (fun kv => kv.1 == n.id)).map (·.2) := by
      rw [← hpn]
      simp only [← buildBatchSiblings_eq]
    rw [hfind] at hlook
    have hfst : p.1 = n := by rw [← hpn]
    refine ⟨?_, ?_⟩
    · intro hnone
      rw [hfst] at hnone
      rw [hlook]
      unfold sibEntry
      simp only [hnone]
      rfl
    · intro b hb
      rw [hfst] at hb
      rw [hlook]
      unfold sibEntry
      simp only [hb]
      constructor
      · intro hle
        have hlt : ¬ (notes.filter fun m => m.source_batch_id == some b).length ≥ 2 := by
          omega
        rw [if_neg hlt]
        rfl
      · intro hge
        rw [if_pos hge, hfst]
        rfl

/-- C7 counterexample.  From the initial state, `initialize` pulls the
server's categories into the local artifact but records no snapshot
hash, so the push that the resulting file-change event triggers — with
exactly the content that was just pulled — issues a network update
call: an echo push. -/
theorem initialize_echo_push :
    (initializeConfig ConfigState.init
        ⟨.ok ["work"], [], .ok (), .ok "reg"⟩).2 = some ["work"]
    ∧ (initializeConfig ConfigState.init
        ⟨.ok ["work"], [], .ok (), .ok "reg"⟩).1.lastPushedCategories = ""
    ∧ (pushToServer (initializeConfig ConfigState.init
          ⟨.ok ["work"], [], .ok (), .ok "reg"⟩).1
        .categories (stringifyCats ["work"]) (.ok ())).2 = 1 := by
  refine ⟨rfl, rfl, ?_⟩
  decide

/-- C7 (amended).  A push short-circuits to `Synced` with no network
call exactly when the current content hash equals the recorded
snapshot; pushing twice with unchanged content issues exactly one
network call; a pull via `pullFromServer` records the pulled snapshots,
so it never triggers an echo push; but `initialize` leaves both
recorded snapshots untouched (whence the counterexample above). -/
theorem config_push_dedup :
    (∀ cs hash net, hash = cs.lastPushedCategories →
        pushToServer cs .categories hash net = ({ cs with status := .synced }, 0))
    ∧ (∀ cs hash net, hash = cs.lastPushedTags →
        pushToServer cs .tags hash net = ({ cs with status := .synced }, 0))
    ∧ (∀ cs hash, hash ≠ cs.lastPushedCategories →
        (pushToServer cs .categories hash (.ok ())).2 = 1
        ∧ (pushToServer (pushToServer cs .categories hash (.ok ())).1
            .categories hash (.ok ())).2 = 0)
    ∧ (∀ cs cats reg,
        (pushToServer (pullFromServer cs ⟨.ok cats, .ok reg⟩)
          .categories (stringifyCats cats) (.ok ())).2 = 0
        ∧ (pushToServer (pullFromServer cs ⟨.ok cats, .ok reg⟩)
          .tags reg (.ok ())).2 = 0)
    ∧ (∀ (cs : ConfigState) (env : InitEnv),
        (initializeConfig cs env).1.lastPushedCategories = cs.lastPushedCategories
        ∧ (initializeConfig cs env).1.lastPushedTags = cs.lastPushedTags) := by
  refine ⟨?_, ?_, ?_, ?_, ?_⟩
  · intro cs hash net h
    simp [pushToServer, h]
  · intro cs hash net h
    simp [pushToServer, h]
  · intro cs hash h
    refine ⟨?_, ?_⟩
    · simp [pushToServer, h]
    · simp [pushToServer, h]
  · intro cs cats reg
    refine ⟨?_, ?_⟩
    · simp [pushToServer, pullFromServer]
    · simp [pushToServer, pullFromServer]
  · intro cs env
    cases henv : env.getCats with
    | error e => cases e <;> simp [initializeConfig, henv]
    | ok cats =>
      by_cases hlen : cats.length = 0
      · cases hpi : env.pluginInit with
        | error e2 => cases e2 <;> simp [initializeConfig, henv, hlen, hpi]
        | ok u =>
          cases htags : env.getTagsRegistry with
          | error e3 => cases e3 <;> simp [initializeConfig, henv, hlen, hpi, htags]
          | ok reg => simp [initializeConfig, henv, hlen, hpi, htags]
      · cases htags : env.getTagsRegistry with
        | error e3 => cases e3 <;> simp [initializeConfig, henv, hlen, htags]
        | ok reg => simp [initializeConfig, henv, hlen, htags]

/-- C9.  `stop()` during an in-flight timer-driven cycle does cancel
the pending timer and does not cancel the cycle — but when the cycle
completes, `syncAndSchedule` unconditionally runs `scheduleNext()`,
arming and registering a fresh interval: the engine keeps its timer
despite the teardown, contradicting the spec's cancellation clause. -/
theorem stop_rearm_bug :
    (schedRun stopRaceEnv stopRaceStart [.tick, .stopCall]).engine.intervalId = none
    ∧ (schedRun stopRaceEnv stopRaceStart [.tick, .stopCall]).phase
        = .running .fetching
    ∧ (schedRun stopRaceEnv stopRaceStart
        [.tick, .stopCall, .tick]).engine.intervalId = some 100
    ∧ (schedRun stopRaceEnv stopRaceStart [.tick, .stopCall, .tick]).phase
        = .finished
    ∧ (schedRun stopRaceEnv stopRaceStart [.tick, .stopCall, .tick]).registered
        = [100] := by
  refine ⟨rfl, rfl, rfl, rfl, rfl⟩

example : extractHttpStatus "Error: Request failed, status 401" = some 401 := by decide
example : extractHttpStatus "Error: Request timed out after 3000ms" = none := by decide
example : extractHttpStatus "status abc status 42" = some 42 := by decide
example : isRetryable "Error: Request failed, status 503" = true := by decide
example : isRetryable "Error: Request failed, status 404" = false := by decide
example : requestWithRetry (α := Nat) (fun _ => .error "e status 404") 2
    = (.error (some "e status 404"), 1) := rfl
example : requestWithRetry (α := Nat) (fun _ => .error "e status 500") 2
    = (.error (some "e status 500"), 2) := rfl
example : requestWithRetry (α := Nat) (fun i => if i = 1 then .ok 7 else .error "x") 3
    = (.ok 7, 2) := rfl

end Archivist

namespace Archivist

/-- Witness for C1: three notes, note "2"'s write throws — `markSynced`
receives exactly `["1", "3"]` with their vault paths. -/
theorem markSynced_exact_witness :
    (sync idleEngine c1env).2.2.markCalls
      = [(["1", "3"], [("1", "path/1"), ("3", "path/3")])] := by
  have h := (markSynced_exact idleEngine c1env c1notes rfl rfl (by decide)).1
  rw [h]
  decide

/-- Witness for C2: after call A has entered its cycle, call B's entry
returns the skipped sentinel with the world otherwise unchanged. -/
theorem sync_single_flight_witness :
    twoStep emptyFetchEnv emptyFetchEnv
        (twoRun emptyFetchEnv emptyFetchEnv ⟨idleEngine, .entry, .entry, 0, 0⟩ [Who.A]) .B
      = { twoRun emptyFetchEnv emptyFetchEnv ⟨idleEngine, .entry, .entry, 0, 0⟩ [Who.A] with
          b := .done (.ret (-1)) } :=
  (sync_single_flight emptyFetchEnv emptyFetchEnv idleEngine rfl [Who.A]).2.2
    (by decide) (by decide)

/-- Witness for C3: two concurrent callers, one settled exchange. -/
theorem refresh_dedup_witness :
    (tokenRun ⟨⟨"rt", "", 0⟩, 0, false, 0, 2, 0, []⟩
        (List.replicate 2 .enter ++ [.settle (.ok "at2" 1000000 "rt2")])).exchanges
      = 1 :=
  (refresh_dedup ⟨"rt", "", 0⟩ 0 2 (.ok "at2" 1000000 "rt2")
    (by decide) (by decide) (by decide)).1

/-- Witness for C4: a successful empty-batch cycle resets the counter
from 3 to 0. -/
theorem consecutiveFailures_law_witness :
    (sync ⟨none, false, 3, 60⟩ emptyFetchEnv).1.consecutiveFailures = 0 :=
  consecutiveFailures_law.2.1 ⟨none, false, 3, 60⟩ emptyFetchEnv 0 rfl
    (by decide) (by decide)

/-- Witness for C5: a 404 failure is terminal — thrown unchanged after
a single attempt even with two attempts allowed. -/
theorem retry_classification_witness :
    requestWithRetry
        (fun _ => (.error "Error: Request failed, status 404" : Except String Nat)) 2
      = (.error (some "Error: Request failed, status 404"), 1) :=
  retry_classification.2.2.2.1 Nat
    (fun _ => .error "Error: Request failed, status 404") 2
    "Error: Request failed, status 404" (by decide) rfl (by decide)

/-- Witness for C6: a 401 rejection of the refresh call clears the
stored access credential, persists once, and raises the distinct
error. -/
theorem renewal_expired_flow_witness :
    doRefresh ⟨"rt", "tok", 99999⟩ (.err "Error: Request failed, status 401")
      = (⟨"rt", "", 0⟩, 1, .error .refreshTokenExpired) :=
  renewal_expired_flow.1 ⟨"rt", "tok", 99999⟩ "Error: Request failed, status 401"
    (by decide) (Or.inl (by decide))

/-- Witness for C7 (amended): pushing changed content issues exactly
one network call; the immediate second push of the same content is
skipped. -/
theorem config_push_dedup_witness :
    (pushToServer ConfigState.init .categories "[w]" (.ok ())).2 = 1
    ∧ (pushToServer (pushToServer ConfigState.init .categories "[w]" (.ok ())).1
        .categories "[w]" (.ok ())).2 = 0 :=
  config_push_dedup.2.2.1 ConfigState.init "[w]" (by decide)

/-- Witness for C8: the dispatch covers the fetched batch in order. -/
theorem batch_siblings_spec_witness :
    (dispatchedSiblings c8notes).map Prod.fst = c8notes :=
  (batch_siblings_spec c8notes (by decide)).1

/-- Witness for C10: a call hitting the guard returns `-1`, changes no
state, and performs no fetch. -/
theorem sync_return_values_witness :
    sync ⟨some 3, true, 2, 60⟩ c1env = (⟨some 3, true, 2, 60⟩, .ret (-1), ⟨0, [], []⟩) :=
  sync_return_values.1 ⟨some 3, true, 2, 60⟩ c1env rfl

end Archivist
